import Mathlib

/-!
Verification of the GroupJoin rewrite and the join-type algebra of this
DataFusion fork.

Part 1 embeds `datafusion/common/src/join_type.rs`: the `JoinType` and
`JoinSide` enums with `swap`, `supports_swap`, `negate`, the `Display`
strings and `FromStr` parsing.  Rust's `unreachable!` abort in `swap` is
modelled by an `Option` result (`none` = abort), and the error side of
`Result` by `Except DataFusionError`.

Part 2 embeds `datafusion/optimizer/src/groupby_and_join_to_groupjoin.rs`:
the `GroupByAndJoinToGroupJoin::rewrite` rule and its `is_group_join`
predicate.  The plan IR it pattern-matches on (`LogicalPlan`, `Expr`,
`Transformed`, the logical-plan `JoinType` with the `Left` and `LeftGroup`
variants) lives in crates that are not part of the two source files, so
those carrier types are modelled from the spec; the rule and predicate
themselves are translated line by line from the source.  Rust's panicking
`Vec` indexing (`group_expr[0]`, `on[0]`) is modelled by `List.get?` with
`none` for the abort.
-/

/- ===== Part 1: datafusion/common/src/join_type.rs ===== -/

/-- Join side (`JoinSide` in `join_type.rs`). -/
inductive JoinSide where
  | left : JoinSide
  | right : JoinSide
deriving DecidableEq, Repr

/-- Join type (`JoinType` in `join_type.rs`): `Inner`, `Outer(side)`, `Full`,
`Semi(side)`, `Anti(side)`, `LeftMark`. -/
inductive JoinType where
  | inner : JoinType
  | outer (side : JoinSide) : JoinType
  | full : JoinType
  | semi (side : JoinSide) : JoinType
  | anti (side : JoinSide) : JoinType
  | leftMark : JoinType
deriving DecidableEq, Repr

/-- The error kind produced by join-type parsing (`_not_impl_err!` builds a
`DataFusionError::NotImplemented` carrying the formatted message). -/
inductive DataFusionError where
  | notImplemented (msg : String) : DataFusionError
deriving DecidableEq, Repr

/-- Rust `JoinSide::negate`: inverse the join side. -/
def JoinSide.negate : JoinSide → JoinSide
  | .left => .right
  | .right => .left

/-- Rust `JoinType::supports_swap`. -/
def JoinType.supports_swap : JoinType → Bool
  | .inner => true
  | .full => true
  | .outer _ => true
  | .semi _ => true
  | .anti _ => true
  | .leftMark => false

/-- Rust `JoinType::swap`.  The `LeftMark` arm is `unreachable!` in the source,
a fatal abort; here it is `none`. -/
def JoinType.swap : JoinType → Option JoinType
  | .inner => some .inner
  | .full => some .full
  | .outer side => some (.outer side.negate)
  | .semi side => some (.semi side.negate)
  | .anti side => some (.anti side.negate)
  | .leftMark => none

/-- Rust `JoinType::is_outer`. -/
def JoinType.is_outer : JoinType → Bool
  | .outer _ => true
  | .full => true
  | _ => false

/-- The `Display` impl for `JoinType`: the canonical display string. -/
def JoinType.display : JoinType → String
  | .inner => "Inner"
  | .outer .left => "Left"
  | .outer .right => "Right"
  | .full => "Full"
  | .semi .left => "LeftSemi"
  | .semi .right => "RightSemi"
  | .anti .left => "LeftAnti"
  | .anti .right => "RightAnti"
  | .leftMark => "LeftMark"

/-- Rust's `str::to_uppercase`, restricted to the ASCII inputs the parser
deals with: upper-case every character. -/
def to_uppercase (s : String) : String := ⟨s.data.map Char.toUpper⟩

/-- The `FromStr` impl for `JoinType`: upper-case the input, then match it
against the canonical forms; an unknown token produces a `NotImplemented`
error whose message embeds the upper-cased token `s`. -/
def JoinType.from_str (s : String) : Except DataFusionError JoinType :=
  let s := to_uppercase s
  if s = "INNER" then .ok .inner
  else if s = "LEFT" then .ok (.outer .left)
  else if s = "RIGHT" then .ok (.outer .right)
  else if s = "FULL" then .ok .full
  else if s = "LEFTSEMI" then .ok (.semi .left)
  else if s = "RIGHTSEMI" then .ok (.semi .right)
  else if s = "LEFTANTI" then .ok (.anti .left)
  else if s = "RIGHTANTI" then .ok (.anti .right)
  else if s = "LEFTMARK" then .ok .leftMark
  else .error (.notImplemented ("The join type " ++ s ++ " does not exist or is not implemented"))

/-- Join constraint (`JoinConstraint` in `join_type.rs`): `On` or `Using`. -/
inductive JoinConstraint where
  | «on» : JoinConstraint
  | «using» : JoinConstraint
deriving DecidableEq, Repr

/- ===== Part 2: datafusion/optimizer/src/groupby_and_join_to_groupjoin.rs ===== -/

/-- Modelled from the spec: the grouping-set variants of the plan IR's
expression type (`datafusion_expr::GroupingSet`, whose source is not among
the given files): rollup, cube, or explicit grouping sets. -/
inductive GroupingSetKind where
  | rollup : GroupingSetKind
  | cube : GroupingSetKind
  | groupingSets : GroupingSetKind
deriving DecidableEq, Repr

/-- Modelled from the spec: the plan IR's expression type
(`datafusion_expr::Expr`, whose source is not among the given files).  The
rewrite only ever compares expressions for syntactic equality, so the model
keeps the cases the spec's data model and the claims distinguish: column
references, literals, and grouping-set expressions (rollup/cube/grouping
sets over sub-expressions). -/
inductive Expr where
  | column (qualifier : Option String) (name : String) : Expr
  | literal (n : Int) : Expr
  | groupingSet (kind : GroupingSetKind) (exprs : List Expr) : Expr

mutual

/-- Structural (syntactic) equality on expressions, mirroring Rust's derived
`PartialEq` used by `==` in `is_group_join`. -/
def Expr.beq : Expr → Expr → Bool
  | .column q n, .column q2 n2 => q == q2 && n == n2
  | .literal a, .literal b => a == b
  | .groupingSet k es, .groupingSet k2 es2 => k == k2 && Expr.beqList es es2
  | _, _ => false

/-- Structural equality on expression lists (element-wise `Expr.beq`). -/
def Expr.beqList : List Expr → List Expr → Bool
  | [], [] => true
  | e :: es, f :: fs => Expr.beq e f && Expr.beqList es fs
  | _, _ => false

end

instance : BEq Expr := ⟨Expr.beq⟩

/-- Whether an expression is a `GroupingSet` (rollup/cube/grouping sets). -/
def Expr.is_grouping_set : Expr → Bool
  | .groupingSet _ _ => true
  | _ => false

/-- Modelled from the spec: the logical-plan join type used by the rewrite
(`datafusion_expr::logical_plan::JoinType`, whose source is not among the
given files).  The rewrite matches the `Left` variant and constructs the
`LeftGroup` variant; the spec's data model lists the remaining shapes. -/
inductive PlanJoinType where
  | inner : PlanJoinType
  | left : PlanJoinType
  | right : PlanJoinType
  | full : PlanJoinType
  | leftSemi : PlanJoinType
  | rightSemi : PlanJoinType
  | leftAnti : PlanJoinType
  | rightAnti : PlanJoinType
  | leftMark : PlanJoinType
  | leftGroup : PlanJoinType
deriving DecidableEq, Repr

/-- Modelled from the spec: an output schema, carried opaquely by plan nodes
(the rewrite never inspects it, it only moves it). -/
structure DFSchema where
  fields : List String

/-- Modelled from the spec: the `Transformed` wrapper around a rewritten
value, a pair of the data and a changed flag. -/
structure Transformed (α : Type) where
  data : α
  transformed : Bool

/-- Rust `Transformed::yes`: the value with the `Changed` flag. -/
def Transformed.yes {α : Type} (a : α) : Transformed α := ⟨a, true⟩

/-- Rust `Transformed::no`: the value with the `Unchanged` flag. -/
def Transformed.no {α : Type} (a : α) : Transformed α := ⟨a, false⟩

/-- Modelled from the spec: the logical plan IR
(`datafusion_expr::LogicalPlan`, whose source is not among the given
files), restricted to the node shapes the rewrite distinguishes: the
`Aggregate` node (input, group_expr, aggr_expr, schema), the `Join` node
(left, right, equi-key list, optional filter, join type, constraint,
schema, null_equals_null, and the optional group/aggregate expression lists
this fork adds to `Join`), and an opaque leaf standing for every other node
kind.  The join's equi-key list is named `on_exprs` because `on` is not
usable as an identifier here. -/
inductive LogicalPlan where
  | aggregate (input : LogicalPlan) (group_expr : List Expr)
      (aggr_expr : List Expr) (schema : DFSchema) : LogicalPlan
  | join (left : LogicalPlan) (right : LogicalPlan)
      (on_exprs : List (Expr × Expr)) (filter : Option Expr)
      (join_type : PlanJoinType) (join_constraint : JoinConstraint)
      (schema : DFSchema) (null_equals_null : Bool)
      (group_expr : Option (List Expr)) (aggr_expr : Option (List Expr)) : LogicalPlan
  | tableScan (name : String) : LogicalPlan

/-- Modelled from the spec: the opaque optimizer-configuration handle
(`&dyn OptimizerConfig`); the rewrite ignores it. -/
structure OptimizerConfig where

/-- Rust `is_group_join` from `groupby_and_join_to_groupjoin.rs`: the source body
is `dbg!(group_expr[0] == on[0].0)`.  Rust `Vec` indexing panics on an empty
vector, so the result is an `Option`: `none` models the abort when either
list is empty, otherwise the comparison of the first grouping expression
with the left side of the first equi-pair (the `dbg!` wrapper only prints
and returns its argument). -/
def is_group_join (group_expr : List Expr) (on_exprs : List (Expr × Expr)) : Option Bool :=
  match group_expr.get? 0, on_exprs.get? 0 with
  | some g, some p => some (Expr.beq g p.1)
  | _, _ => none

/-- Rust `OptimizerRule::name` for `GroupByAndJoinToGroupJoin`. -/
def GroupByAndJoinToGroupJoin.name : String := "group_by_and_join_to_group_join"

/-- Rust `OptimizerRule::supports_rewrite` for `GroupByAndJoinToGroupJoin`. -/
def GroupByAndJoinToGroupJoin.supports_rewrite : Bool := true

/-- Rust `GroupByAndJoinToGroupJoin::rewrite`: destructure an `Aggregate` over a
`Join` with join type `Left` (returning `Transformed::no(plan)` on either
failed match), then, if `is_group_join` holds of the grouping expressions
and the equi-key list, build the fused `LeftGroup` join carrying the
aggregate's schema and the grouping/aggregate expressions, flagged
`Transformed::yes`; otherwise return `Transformed::no(plan)`.  The outer
`Option` models the panic `is_group_join` can raise; the `Except` layer is
the `Result` return type (the body only ever builds `Ok`). -/
def rewrite (plan : LogicalPlan) (_config : OptimizerConfig) :
    Option (Except DataFusionError (Transformed LogicalPlan)) :=
  match plan with
  | .aggregate input group_expr aggr_expr aggregate_schema =>
    match input with
    | .join left right on_exprs filter .left join_constraint _join_schema
        null_equals_null _ _ =>
      match is_group_join group_expr on_exprs with
      | none => none
      | some true =>
          some (.ok (Transformed.yes (.join left right on_exprs filter
            .leftGroup join_constraint aggregate_schema null_equals_null
            (some group_expr) (some aggr_expr))))
      | some false => some (.ok (Transformed.no plan))
    | _ => some (.ok (Transformed.no plan))
  | _ => some (.ok (Transformed.no plan))

/-- Whether a plan matches the rewrite's pattern: an `Aggregate` whose
direct input is a `Join` of join type `Left`. -/
def matches_pattern : LogicalPlan → Bool
  | .aggregate (.join _ _ _ _ .left _ _ _ _ _) _ _ _ => true
  | _ => false

/- ===== Claims C6-C9: the join-type algebra ===== -/

/-- C6: for every value of the `JoinType` enumeration, parsing the display
string of that value succeeds and returns the value back (parse after
display is the identity round-trip). -/
theorem c6_parse_display_roundtrip (t : JoinType) :
    JoinType.from_str (JoinType.display t) = .ok t := by
  cases t with
  | outer s => cases s <;> rfl
  | semi s => cases s <;> rfl
  | anti s => cases s <;> rfl
  | inner => rfl
  | full => rfl
  | leftMark => rfl

/-- C7: on every join type that supports swapping, `swap` is an involution
(swapping twice returns the original join type), and `negate` is an
involution on join sides. -/
theorem c7_swap_negate_involutive :
    (∀ t : JoinType, JoinType.supports_swap t = true →
      (JoinType.swap t).bind JoinType.swap = some t) ∧
    (∀ s : JoinSide, JoinSide.negate (JoinSide.negate s) = s) := by
  constructor
  · intro t h
    cases t with
    | outer s => cases s <;> rfl
    | semi s => cases s <;> rfl
    | anti s => cases s <;> rfl
    | inner => rfl
    | full => rfl
    | leftMark => exact absurd h (by decide)
  · intro s
    cases s <;> rfl

/-- Witness for C7 at `Outer(Left)` and `Left`. -/
theorem c7_swap_negate_involutive_witness :
    (JoinType.swap (JoinType.outer .left)).bind JoinType.swap
      = some (JoinType.outer .left) ∧
    JoinSide.negate (JoinSide.negate .left) = .left :=
  ⟨c7_swap_negate_involutive.1 (JoinType.outer .left) rfl,
   c7_swap_negate_involutive.2 .left⟩

/-- C8: `swap` aborts (returns `none`, modelling the `unreachable!`) exactly
when `supports_swap` is false, and `supports_swap` is false exactly at
`LeftMark`; hence under the precondition `supports_swap t = true` the abort
branch is unreachable and `swap` returns a join type. -/
theorem c8_swap_aborts_iff_unsupported (t : JoinType) :
    (JoinType.swap t = none ↔ JoinType.supports_swap t = false) ∧
    (JoinType.supports_swap t = false ↔ t = JoinType.leftMark) := by
  cases t with
  | outer s => cases s <;> decide
  | semi s => cases s <;> decide
  | anti s => cases s <;> decide
  | inner => decide
  | full => decide
  | leftMark => decide

/-- C9 fails as stated: parsing the unknown token `"zig"` produces the
`NotImplemented` message built from the upper-cased token `"ZIG"`, which is
not the original token `"zig"` verbatim. -/
theorem c9_message_uppercases_token_counterexample :
    JoinType.from_str "zig"
      = .error (.notImplemented "The join type ZIG does not exist or is not implemented") ∧
    (("The join type ZIG does not exist or is not implemented" : String)
      == "The join type zig does not exist or is not implemented") = false := by
  exact ⟨rfl, rfl⟩

/-- C9 (amended): for every input string matching no canonical join-type
display form case-insensitively, parsing fails with a `NotImplemented`
error whose message is "The join type {TOKEN} does not exist or is not
implemented" where {TOKEN} is the upper-cased input. -/
theorem c9_unknown_token_not_implemented (s : String)
    (h : ∀ t : JoinType, to_uppercase s ≠ to_uppercase (JoinType.display t)) :
    JoinType.from_str s = .error (.notImplemented
      ("The join type " ++ to_uppercase s ++ " does not exist or is not implemented")) := by
  have h1 : to_uppercase s ≠ "INNER" := h .inner
  have h2 : to_uppercase s ≠ "LEFT" := h (.outer .left)
  have h3 : to_uppercase s ≠ "RIGHT" := h (.outer .right)
  have h4 : to_uppercase s ≠ "FULL" := h .full
  have h5 : to_uppercase s ≠ "LEFTSEMI" := h (.semi .left)
  have h6 : to_uppercase s ≠ "RIGHTSEMI" := h (.semi .right)
  have h7 : to_uppercase s ≠ "LEFTANTI" := h (.anti .left)
  have h8 : to_uppercase s ≠ "RIGHTANTI" := h (.anti .right)
  have h9 : to_uppercase s ≠ "LEFTMARK" := h .leftMark
  simp only [JoinType.from_str]
  rw [if_neg h1, if_neg h2, if_neg h3, if_neg h4, if_neg h5, if_neg h6,
    if_neg h7, if_neg h8, if_neg h9]

/-- Witness for the amended C9 at the empty string. -/
theorem c9_unknown_token_not_implemented_witness :
    JoinType.from_str ""
      = .error (.notImplemented
        ("The join type " ++ to_uppercase "" ++ " does not exist or is not implemented")) :=
  c9_unknown_token_not_implemented "" (by
    intro t
    cases t with
    | outer s => cases s <;> decide
    | semi s => cases s <;> decide
    | anti s => cases s <;> decide
    | inner => decide
    | full => decide
    | leftMark => decide)

/- ===== Claims C1-C5, C10: the GroupJoin rewrite ===== -/

/-- Concrete column `l.a` used in the concrete plans below. -/
def exprA : Expr := .column (some "l") "a"

/-- Concrete column `l.b` used in the concrete plans below. -/
def exprB : Expr := .column (some "l") "b"

/-- Concrete column `r.c` used in the concrete plans below. -/
def exprC : Expr := .column (some "r") "c"

/-- The rewrite either aborts or returns an `Ok` result; it never builds an
`Err` (every return site of the source is `Ok(...)`). -/
theorem rewrite_ok_or_abort (plan : LogicalPlan) (cfg : OptimizerConfig) :
    rewrite plan cfg = none ∨ ∃ t, rewrite plan cfg = some (.ok t) := by
  cases plan with
  | tableScan nm => exact Or.inr ⟨_, rfl⟩
  | join L R k f jt c sj n ge ae => exact Or.inr ⟨_, rfl⟩
  | aggregate input G A S =>
    cases input with
    | tableScan nm => exact Or.inr ⟨_, rfl⟩
    | aggregate i2 G2 A2 S2 => exact Or.inr ⟨_, rfl⟩
    | join L R k f jt c sj n ge ae =>
      cases jt with
      | left =>
        rcases hik : is_group_join G k with _ | b
        · exact Or.inl (by simp [rewrite, hik])
        · cases b
          · refine Or.inr ⟨Transformed.no ((L.join R k f .left c sj n ge ae).aggregate G A S), ?_⟩
            simp [rewrite, hik]
          · refine Or.inr ⟨Transformed.yes (L.join R k f .leftGroup c S n (some G) (some A)), ?_⟩
            simp [rewrite, hik]
      | inner => exact Or.inr ⟨_, rfl⟩
      | right => exact Or.inr ⟨_, rfl⟩
      | full => exact Or.inr ⟨_, rfl⟩
      | leftSemi => exact Or.inr ⟨_, rfl⟩
      | rightSemi => exact Or.inr ⟨_, rfl⟩
      | leftAnti => exact Or.inr ⟨_, rfl⟩
      | rightAnti => exact Or.inr ⟨_, rfl⟩
      | leftMark => exact Or.inr ⟨_, rfl⟩
      | leftGroup => exact Or.inr ⟨_, rfl⟩

/-- A plan not matching the Aggregate-over-left-outer-Join pattern is
returned unchanged with the `Unchanged` flag. -/
theorem rewrite_no_match (plan : LogicalPlan) (cfg : OptimizerConfig)
    (hm : matches_pattern plan = false) :
    rewrite plan cfg = some (.ok (Transformed.no plan)) := by
  cases plan with
  | tableScan nm => rfl
  | join L R k f jt c sj n ge ae => rfl
  | aggregate input G A S =>
    cases input with
    | tableScan nm => rfl
    | aggregate i2 G2 A2 S2 => rfl
    | join L R k f jt c sj n ge ae =>
      cases jt <;> first | rfl | simp [matches_pattern] at hm

/-- C1 fails on the code: with grouping expressions `[l.a, l.b]` and
equi-key list `[(l.a, r.c)]`, `is_group_join` compares only the first
grouping expression with the first equi-key, so the rewrite fires (returns
the fused `LeftGroup` join with the `Changed` flag) although the grouping
expression `l.b` is syntactically equal to no left-side equi-key. -/
theorem c1_stub_fires_without_full_alignment :
    rewrite (.aggregate (.join (.tableScan "L") (.tableScan "R")
        [(exprA, exprC)] none .left JoinConstraint.on ⟨["j"]⟩ false none none)
      [exprA, exprB] [] ⟨["s"]⟩) ⟨⟩
      = some (.ok (Transformed.yes (.join (.tableScan "L") (.tableScan "R")
        [(exprA, exprC)] none .leftGroup JoinConstraint.on ⟨["s"]⟩ false
        (some [exprA, exprB]) (some [])))) ∧
    ([exprA, exprB].all fun g => [(exprA, exprC)].any fun p => Expr.beq g p.1) = false :=
  ⟨rfl, rfl⟩

/-- C2: whenever the rewrite fires on an Aggregate over a left-outer Join
(`is_group_join` returns true), the result is a single `LeftGroup` join
node carrying the aggregate's schema and its grouping and aggregate
expressions, with the `left`, `right`, equi-key, `filter`, constraint and
`null_equals_null` fields of the consumed Join, wrapped `Changed`. -/
theorem c2_fired_result_shape (L R : LogicalPlan) (G A : List Expr)
    (k : List (Expr × Expr)) (f : Option Expr) (c : JoinConstraint)
    (sj sa : DFSchema) (n : Bool) (ge ae : Option (List Expr))
    (cfg : OptimizerConfig) (h : is_group_join G k = some true) :
    rewrite (.aggregate (.join L R k f .left c sj n ge ae) G A sa) cfg
      = some (.ok (Transformed.yes (.join L R k f .leftGroup c sa n (some G) (some A)))) := by
  simp [rewrite, h]

/-- Witness for C2 on a concrete firing plan. -/
theorem c2_fired_result_shape_witness :
    rewrite (.aggregate (.join (.tableScan "L") (.tableScan "R")
        [(exprA, exprC)] none .left JoinConstraint.on ⟨["j"]⟩ false none none)
      [exprA] [exprB] ⟨["s"]⟩) ⟨⟩
      = some (.ok (Transformed.yes (.join (.tableScan "L") (.tableScan "R")
        [(exprA, exprC)] none .leftGroup JoinConstraint.on ⟨["s"]⟩ false
        (some [exprA]) (some [exprB])))) :=
  c2_fired_result_shape (.tableScan "L") (.tableScan "R") [exprA] [exprB]
    [(exprA, exprC)] none JoinConstraint.on ⟨["j"]⟩ ⟨["s"]⟩ false none none ⟨⟩ rfl

/-- C3 fails on the code: (1) with grouping expressions
`[l.a, rollup(l.a)]` — the second one a `GroupingSet` — over a left-outer
join with equi-keys `[(l.a, r.c)]`, the rewrite still fires with the
`Changed` flag, because `is_group_join` inspects only the first grouping
expression and nothing checks for grouping sets; (2) with an empty grouping
list the rewrite aborts (the index-0 panic, modelled `none`) instead of
returning the original plan with the `Unchanged` flag. -/
theorem c3_grouping_set_and_empty_group_violations :
    rewrite (.aggregate (.join (.tableScan "L") (.tableScan "R")
        [(exprA, exprC)] none .left JoinConstraint.on ⟨["j"]⟩ false none none)
      [exprA, .groupingSet .rollup [exprA]] [] ⟨["s"]⟩) ⟨⟩
      = some (.ok (Transformed.yes (.join (.tableScan "L") (.tableScan "R")
        [(exprA, exprC)] none .leftGroup JoinConstraint.on ⟨["s"]⟩ false
        (some [exprA, .groupingSet .rollup [exprA]]) (some [])))) ∧
    ([exprA, Expr.groupingSet .rollup [exprA]].any Expr.is_grouping_set) = true ∧
    rewrite (.aggregate (.join (.tableScan "L") (.tableScan "R")
        [(exprA, exprC)] none .left JoinConstraint.on ⟨["j"]⟩ false none none)
      [] [] ⟨["s"]⟩) ⟨⟩ = none :=
  ⟨rfl, rfl, rfl⟩

/-- C4: the rewrite never returns an `Err`: every value it returns is `Ok`,
and a plan that does not match the Aggregate-over-left-outer-Join pattern
yields the non-firing `Unchanged` result, not an error. -/
theorem c4_rewrite_never_errors (plan : LogicalPlan) (cfg : OptimizerConfig) :
    (∀ r, rewrite plan cfg = some r → ∃ t, r = .ok t) ∧
    (matches_pattern plan = false →
      rewrite plan cfg = some (.ok (Transformed.no plan))) := by
  constructor
  · intro r hr
    rcases rewrite_ok_or_abort plan cfg with h | ⟨t, h⟩
    · rw [h] at hr
      exact absurd hr (by simp)
    · rw [h] at hr
      exact ⟨t, (Option.some.inj hr).symm⟩
  · exact rewrite_no_match plan cfg

/-- Witness for C4 at a leaf plan. -/
theorem c4_rewrite_never_errors_witness :
    rewrite (LogicalPlan.tableScan "T") ⟨⟩
      = some (.ok (Transformed.no (LogicalPlan.tableScan "T"))) ∧
    ∃ t, (Except.ok (Transformed.no (LogicalPlan.tableScan "T")) :
      Except DataFusionError (Transformed LogicalPlan)) = .ok t :=
  ⟨(c4_rewrite_never_errors (LogicalPlan.tableScan "T") ⟨⟩).2 rfl,
   (c4_rewrite_never_errors (LogicalPlan.tableScan "T") ⟨⟩).1 _
     ((c4_rewrite_never_errors (LogicalPlan.tableScan "T") ⟨⟩).2 rfl)⟩

/-- C5: applied to an Aggregate whose direct input is a left-outer Join,
the rewrite's key-alignment check indexes element 0 of both lists: it
aborts (modelled `none`) when the grouping-expression list or the equi-key
list is empty, and returns a result when both are non-empty. -/
theorem c5_empty_lists_abort (L R : LogicalPlan) (G A : List Expr)
    (k : List (Expr × Expr)) (f : Option Expr) (c : JoinConstraint)
    (sj sa : DFSchema) (n : Bool) (ge ae : Option (List Expr))
    (cfg : OptimizerConfig) :
    ((G = [] ∨ k = []) →
      rewrite (.aggregate (.join L R k f .left c sj n ge ae) G A sa) cfg = none) ∧
    (G ≠ [] → k ≠ [] →
      (rewrite (.aggregate (.join L R k f .left c sj n ge ae) G A sa) cfg).isSome = true) := by
  constructor
  · rintro (rfl | rfl)
    · cases k <;> simp [rewrite, is_group_join]
    · cases G <;> simp [rewrite, is_group_join]
  · intro hG hk
    rcases G with _ | ⟨g, G2⟩
    · exact absurd rfl hG
    rcases k with _ | ⟨p, k2⟩
    · exact absurd rfl hk
    cases hb : Expr.beq g p.1 <;> simp [rewrite, is_group_join, hb]

/-- Witness for C5: the abort on an empty grouping list and the successful
return on non-empty lists, on concrete plans. -/
theorem c5_empty_lists_abort_witness :
    rewrite (.aggregate (.join (.tableScan "L") (.tableScan "R")
        [(exprA, exprC)] none .left JoinConstraint.on ⟨["j"]⟩ false none none)
      [] [] ⟨["s"]⟩) ⟨⟩ = none ∧
    (rewrite (.aggregate (.join (.tableScan "L") (.tableScan "R")
        [(exprA, exprC)] none .left JoinConstraint.on ⟨["j"]⟩ false none none)
      [exprB] [] ⟨["s"]⟩) ⟨⟩).isSome = true :=
  ⟨(c5_empty_lists_abort (.tableScan "L") (.tableScan "R") [] []
      [(exprA, exprC)] none JoinConstraint.on ⟨["j"]⟩ ⟨["s"]⟩ false none none ⟨⟩).1
      (Or.inl rfl),
   (c5_empty_lists_abort (.tableScan "L") (.tableScan "R") [exprB] []
      [(exprA, exprC)] none JoinConstraint.on ⟨["j"]⟩ ⟨["s"]⟩ false none none ⟨⟩).2
      (List.cons_ne_nil _ _) (List.cons_ne_nil _ _)⟩

/-- C10: the rewrite is idempotent — whenever a first application returns a
result plan, applying the rewrite to that plan returns it unchanged, so two
applications yield the same tree as one. -/
theorem c10_rewrite_idempotent (p : LogicalPlan) (t : Transformed LogicalPlan)
    (cfg cfg2 : OptimizerConfig) (h : rewrite p cfg = some (.ok t)) :
    rewrite t.data cfg2 = some (.ok (Transformed.no t.data)) := by
  cases p with
  | tableScan nm =>
    simp [rewrite, Transformed.no] at h
    rw [← h]
    rfl
  | join L R k f jt c sj n ge ae =>
    simp [rewrite, Transformed.no] at h
    rw [← h]
    rfl
  | aggregate input G A S =>
    cases input with
    | tableScan nm =>
      simp [rewrite, Transformed.no] at h
      rw [← h]
      rfl
    | aggregate i2 G2 A2 S2 =>
      simp [rewrite, Transformed.no] at h
      rw [← h]
      rfl
    | join L R k f jt c sj n ge ae =>
      cases jt with
      | left =>
        rcases hik : is_group_join G k with _ | b
        · simp [rewrite, hik] at h
        · cases b
          · simp [rewrite, hik, Transformed.no] at h
            rw [← h]
            simp [rewrite, hik, Transformed.no]
          · simp [rewrite, hik, Transformed.yes] at h
            rw [← h]
            rfl
      | inner =>
        simp [rewrite, Transformed.no] at h
        rw [← h]
        rfl
      | right =>
        simp [rewrite, Transformed.no] at h
        rw [← h]
        rfl
      | full =>
        simp [rewrite, Transformed.no] at h
        rw [← h]
        rfl
      | leftSemi =>
        simp [rewrite, Transformed.no] at h
        rw [← h]
        rfl
      | rightSemi =>
        simp [rewrite, Transformed.no] at h
        rw [← h]
        rfl
      | leftAnti =>
        simp [rewrite, Transformed.no] at h
        rw [← h]
        rfl
      | rightAnti =>
        simp [rewrite, Transformed.no] at h
        rw [← h]
        rfl
      | leftMark =>
        simp [rewrite, Transformed.no] at h
        rw [← h]
        rfl
      | leftGroup =>
        simp [rewrite, Transformed.no] at h
        rw [← h]
        rfl

/-- Witness for C10: a first application that fires, then a second
application on the fused plan that leaves it unchanged. -/
theorem c10_rewrite_idempotent_witness :
    rewrite (LogicalPlan.join (.tableScan "L") (.tableScan "R")
        [(exprA, exprC)] none .leftGroup JoinConstraint.on ⟨["s"]⟩ false
        (some [exprA]) (some [exprB])) ⟨⟩
      = some (.ok (Transformed.no (LogicalPlan.join (.tableScan "L") (.tableScan "R")
        [(exprA, exprC)] none .leftGroup JoinConstraint.on ⟨["s"]⟩ false
        (some [exprA]) (some [exprB])))) :=
  c10_rewrite_idempotent
    (.aggregate (.join (.tableScan "L") (.tableScan "R")
        [(exprA, exprC)] none .left JoinConstraint.on ⟨["j"]⟩ false none none)
      [exprA] [exprB] ⟨["s"]⟩)
    (Transformed.yes (.join (.tableScan "L") (.tableScan "R")
        [(exprA, exprC)] none .leftGroup JoinConstraint.on ⟨["s"]⟩ false
        (some [exprA]) (some [exprB])))
    ⟨⟩ ⟨⟩ rfl
